import Mathlib

/-
Verification development for python-autopxd (src/autopxd/__init__.py).

The file shallowly embeds the declarator-resolution and naming engine of the
source: the `AutoPxd` visitor class (its mutable attributes become the explicit
state record `AState`, threaded through the recursion), the output node model
(classes IdentifierType, Function, Ptr, Array, Type, Block, Enum become the
inductive `PxdNode`), and the `translate` driver.  The input C AST (pycparser
nodes) is embedded as the inductive `CAst`, restricted to the node kinds and
fields the engine reads.  Python lists appended in place become Lean lists;
the Python dict `self.constants` becomes an insertion-ordered association
list; Python strings become Lean strings.

Totalization notes (places where the Python would raise and abort the run,
which the embedding makes total; no theorem below depends on these paths):
 * `assert len(decls) == 1` style checks: the embedding proceeds with the
   first (or for FuncDecl the last) collected element, defaulting when empty.
 * ancestor-stack index checks out of range: the embedding answers false.
 * `int(...)` of an enumerator literal: the embedding carries the already
   parsed integer in the AST (constructor `EnumInit.lit`).
-/

namespace Autopxd

/-- Fixed-width integer type names, `STDINT_DECLARATIONS` in the source. -/
def STDINT_DECLARATIONS : List String :=
  ["int8_t", "uint8_t", "int16_t", "uint16_t",
   "int32_t", "uint32_t", "int64_t", "uint64_t", "int_least8_t",
   "uint_least8_t", "int_least16_t", "uint_least16_t", "int_least32_t",
   "uint_least32_t", "int_least64_t", "uint_least64_t", "int_fast8_t",
   "uint_fast8_t", "int_fast16_t", "uint_fast16_t", "int_fast32_t",
   "uint_fast32_t", "int_fast64_t", "uint_fast64_t", "intptr_t", "uintptr_t",
   "intmax_t", "uintmax_t"]

/-- An enumerator initializer as `visit_Enum` sees it: `lit n` is a pycparser
`Constant` whose `.value` attribute exists and parses as the integer `n`
(the source runs `int(item.value.value)`); `other` is any initializer node
that has no `.value` attribute (e.g. a unary minus or an identifier), for
which the source falls through to auto-increment. -/
inductive EnumInit where
  | lit (n : Int)
  | other

/-- The pycparser AST fragment the engine walks.  Children are listed in the
order pycparser's `children()` yields them (so `generic_visit` order is the
left-to-right field order used in `visit` below).  `typedef` is the Typedef
node, `typename` the Typename node (unnamed function parameters),
`constExpr`/`idExpr` are Constant and ID expression nodes used as array
dimensions, `otherExpr` any other expression node. -/
inductive CAst where
  | identifierType (names : List String)
  | typeDecl (declname : Option String) (ty : CAst)
  | decl (name : Option String) (ty : CAst)
  | typedef (name : Option String) (ty : CAst)
  | typename (name : Option String) (ty : CAst)
  | ptrDecl (ty : CAst)
  | arrayDecl (ty : CAst) (dim : Option CAst)
  | funcDecl (args : Option CAst) (ty : CAst)
  | structNode (name : Option String) (decls : Option (List CAst))
  | unionNode (name : Option String) (decls : Option (List CAst))
  | enumNode (name : Option String) (values : Option (List (String × Option EnumInit)))
  | fileAST (ext : List CAst)
  | paramList (params : List CAst)
  | constExpr (value : String)
  | idExpr (name : String)
  | otherExpr

/-- The output node model: PxdNode subclasses of the source, plus the two
kinds of non-node values the source stores in its decl lists: bare Python
strings (`pyStr`) and Python `None` (`pyNone`, which the source can append
through `visit_Enum`).  `typeNode` is the source's class `Type` (a ctypedef
wrapper), `enum` its class `Enum`, `block` its class `Block`. -/
inductive PxdNode where
  | pyStr (s : String)
  | pyNone
  | identifierType (name : String) (type_name : String)
  | function (return_type : String) (name : String) (args : List PxdNode)
  | ptr (node : PxdNode)
  | array (node : PxdNode) (dimensions : List String)
  | typeNode (node : PxdNode)
  | block (name : String) (fields : List PxdNode) (kind : String) (statement : String)
  | enum (name : Option String) (items : List String) (statement : String)

/-- The per-level indentation unit, `PxdNode.indent` in the source. -/
def indentUnit : String := "    "

/-- `IdentifierType.lines`: one line `"{type_name} {name}"`, or just the type
text when the name is empty. -/
def identLines (type_name name : String) : List String :=
  if name ≠ "" then [type_name ++ " " ++ name] else [type_name]

/-- The `.name` attribute of an output node (`Ptr.name` and `Array.name` are
properties in the source; `Array.name` appends the bracketed dimensions when
the dimension list is non-empty).  Nodes without a `.name` attribute map
to `""` (attribute access on them would raise in Python). -/
def pxdName : PxdNode → String
  | .identifierType name _ => name
  | .function _ name _ => name
  | .ptr node => pxdName node
  | .array node dims =>
      if dims ≠ [] then pxdName node ++ "[" ++ String.intercalate "][" dims ++ "]"
      else pxdName node
  | .block name _ _ _ => name
  | _ => ""

/-- The `.type_name` attribute of an output node: `Ptr.type_name` appends a
star, `Array.type_name` passes through.  Nodes without the attribute map
to `""`. -/
def pxdTypeName : PxdNode → String
  | .identifierType _ t => t
  | .ptr node => pxdTypeName node ++ "*"
  | .array node _ => pxdTypeName node
  | _ => ""

mutual

/-- `lines()` of an output node, exactly as each subclass renders in the
source.  `pyStr s` renders as the string itself (matching `str(s)` where the
source stringifies collected values); `pyNone` as Python's `str(None)`. -/
def pxdLines : PxdNode → List String
  | .pyStr s => [s]
  | .pyNone => ["None"]
  | .identifierType name t => identLines t name
  | .function rt name args =>
      [rt ++ " " ++ name ++ "(" ++
        String.intercalate ", " ((pxdLinesList args).map (fun l => l.headD "")) ++ ")"]
  | .ptr node =>
      match node with
      | .function rt name args =>
          [rt ++ " (*" ++ name ++ ")(" ++
            String.intercalate ", " ((pxdLinesList args).map (fun l => l.headD "")) ++ ")"]
      | _ => identLines (pxdTypeName node ++ "*") (pxdName node)
  | .array node dims => identLines (pxdTypeName node) (pxdName (.array node dims))
  | .typeNode node =>
      match pxdLines node with
      | [] => []
      | l0 :: rest => ("ctypedef " ++ l0) :: rest
  | .block name fields kind stmt =>
      (stmt ++ " " ++ kind ++ " " ++ name ++ ":") ::
        ((pxdLinesList fields).map (fun ls => ls.map (fun l => indentUnit ++ l))).flatten
  | .enum name items stmt =>
      (match name with
       | some n => if n ≠ "" then stmt ++ " enum " ++ n ++ ":" else "cdef enum:"
       | none => "cdef enum:") :: items.map (fun i => indentUnit ++ i)

/-- `lines()` of each node of a list, in order. -/
def pxdLinesList : List PxdNode → List (List String)
  | [] => []
  | x :: xs => pxdLines x :: pxdLinesList xs

end

/-- Python `str(node)`: the lines joined by newlines. -/
def pxdStr (n : PxdNode) : String := String.intercalate "\n" (pxdLines n)

/-- The visitor's mutable attributes: `decl_stack` is split into its bottom
element (`toplevel`, the top-level accumulator `decl_stack[0]`) and the
stack of `collect` frames above it (`frames`, innermost first, so the
source's `decl_stack[-1]` is the head of `frames` when any frame is open
and `toplevel` otherwise); `visit_stack` holds the most recently pushed
node first (so Python's `visit_stack[-k]` is index `k-1` here, and
`visit_stack[:-2]` is `(visit_stack.drop 2).reverse`). -/
structure AState where
  toplevel : List PxdNode
  frames : List (List PxdNode)
  visit_stack : List CAst
  stdint_declarations : List String
  dimension_stack : List String
  constants : List (String × Int)

/-- The state `AutoPxd.__init__` sets up: `decl_stack = [[]]`, everything
else empty. -/
def initState : AState := ⟨[], [], [], [], [], []⟩

/-- `self.append(node)`: append to `decl_stack[-1]`. -/
def appendCur (x : PxdNode) (s : AState) : AState :=
  match s.frames with
  | [] => { s with toplevel := s.toplevel ++ [x] }
  | f :: rest => { s with frames := (f ++ [x]) :: rest }

/-- `self.decl_stack[0].append(node)`: append to the top-level accumulator. -/
def appendTop (x : PxdNode) (s : AState) : AState :=
  { s with toplevel := s.toplevel ++ [x] }

/-- Opening of `collect`: push a fresh list on the decl stack. -/
def pushFrame (s : AState) : AState := { s with frames := [] :: s.frames }

/-- Closing of `collect`: pop the innermost list and return it. -/
def popFrame (s : AState) : List PxdNode × AState :=
  (s.frames.headD [], { s with frames := s.frames.tail })

/-- Lookup in the Constant Table (`name in self.constants` /
`self.constants[name]`). -/
def dictLookup (d : List (String × Int)) (k : String) : Option Int :=
  (d.find? (fun p => p.1 == k)).map (fun p => p.2)

/-- `self.constants[name] = value` on an insertion-ordered dict: update in
place if the key exists, else append. -/
def dictInsert (d : List (String × Int)) (k : String) (v : Int) : List (String × Int) :=
  if d.any (fun p => p.1 == k) then
    d.map (fun p => if p.1 == k then (k, v) else p)
  else d ++ [(k, v)]

/-- Python truthiness of an optional string: `None` and `""` are falsy. -/
def truthy : Option String → Option String
  | some s => if s = "" then none else some s
  | none => none

/-- The name `path_name` reads off an ancestor: its `declname` if the node
has that attribute and it is truthy, else its `name` under the same
conditions (only the node kinds below carry either attribute). -/
def pickName : CAst → Option String
  | .typeDecl declname _ => truthy declname
  | .decl name _ => truthy name
  | .typedef name _ => truthy name
  | .typename name _ => truthy name
  | .structNode name _ => truthy name
  | .unionNode name _ => truthy name
  | .enumNode name _ => truthy name
  | .idExpr name => truthy (some name)
  | _ => none

/-- `AutoPxd.path_name(tag)`: underscore-join the truthy ancestor names of
`visit_stack[:-2]` in push order; with a tag, surround as `_{names}_{tag}`. -/
def path_name (stack : List CAst) (tag : Option String) : String :=
  let names := ((stack.drop 2).reverse).filterMap pickName
  match tag with
  | none => String.intercalate "_" names
  | some t => "_" ++ String.intercalate "_" names ++ "_" ++ t

def isTypeDeclNode : CAst → Bool
  | .typeDecl _ _ => true
  | _ => false

def isTypedefNode : CAst → Bool
  | .typedef _ _ => true
  | _ => false

def isPtrDeclNode : CAst → Bool
  | .ptrDecl _ => true
  | _ => false

/-- `self.child_of(T, index)` with a negative index: Python's
`visit_stack[-k]` is entry `k-1` of our newest-first stack; an out-of-range
index answers false (the source would raise IndexError there). -/
def stackIs (s : AState) (i : Nat) (p : CAst → Bool) : Bool :=
  match s.visit_stack.get? i with
  | some n => p n
  | none => false

/-- One step of a right fold building Python `str.split()`: the state is the
word currently being built and the completed words to the right. -/
def pySplitStep (c : Char) (st : List Char × List (List Char)) :
    List Char × List (List Char) :=
  if c.isWhitespace then
    if st.1 = [] then ([], st.2) else ([], st.1 :: st.2)
  else (c :: st.1, st.2)

/-- Python `str.split()`: split on whitespace runs, dropping empty pieces. -/
def pySplit (s : String) : List String :=
  let (w, ws) := s.data.foldr pySplitStep ([], [])
  (if w = [] then ws else w :: ws).map (fun cs => String.mk cs)

/-- The dimension string `visit_ArrayDecl` computes before recursing: a
Constant's `.value` text; a named constant found in the Constant Table,
stringified; otherwise the empty string. -/
def dimString (s : AState) (dim : Option CAst) : String :=
  match dim with
  | some (.constExpr v) => v
  | some (.idExpr n) =>
      match dictLookup s.constants n with
      | some v => toString v
      | none => ""
  | _ => ""

/-- The enumerator loop of `visit_Enum`: running value starts at 0; an
initializer with a `.value` attribute sets the value to that literal, any
other (or absent) initializer increments by one BEFORE the store; every
enumerator's value is recorded in the Constant Table in order.  Returns the
item names in order and the updated table. -/
def evalEnumerators :
    List (String × Option EnumInit) → Int → List (String × Int) →
      List String × List (String × Int)
  | [], _, consts => ([], consts)
  | (n, init) :: rest, value, consts =>
      let v : Int :=
        match init with
        | some (.lit k) => k
        | _ => value + 1
      let (items, consts2) := evalEnumerators rest v (dictInsert consts n v)
      (n :: items, consts2)

/-- `visit_IdentifierType`: register each fixed-width name not yet seen, in
order, then append the space-joined type text as a bare string. -/
def identifierTypeStep (names : List String) (s : AState) : AState :=
  let st := names.foldl
    (fun acc n =>
      if n ∈ STDINT_DECLARATIONS ∧ n ∉ acc then acc ++ [n] else acc)
    s.stdint_declarations
  appendCur (.pyStr (String.intercalate " " names)) { s with stdint_declarations := st }

/-- Tail of `visit_TypeDecl` after `collect`: nothing when nothing was
collected; wrap a bare string with the TypeDecl's `declname` (Python's
`name or ''`), else pass the node through. -/
def typeDeclStep (declname : Option String) (ds : List PxdNode) (s : AState) : AState :=
  match ds with
  | [] => s
  | d :: _ =>
      match d with
      | .pyStr t => appendCur (.identifierType (declname.getD "") t) s
      | _ => appendCur d s

/-- Tail of `visit_Decl` after `collect` (same shape as `visit_TypeDecl`,
keyed on the Decl's `name`). -/
def declStep (name : Option String) (ds : List PxdNode) (s : AState) : AState :=
  match ds with
  | [] => s
  | d :: _ =>
      match d with
      | .pyStr t => appendCur (.identifierType (name.getD "") t) s
      | _ => appendCur d s

/-- Tail of `visit_PtrDecl` after `collect`: a bare string is re-appended
as is; a node is wrapped in `Ptr`. -/
def ptrDeclStep (ds : List PxdNode) (s : AState) : AState :=
  match ds with
  | [] => s
  | d :: _ =>
      match d with
      | .pyStr t => appendCur (.pyStr t) s
      | _ => appendCur (.ptr d) s

/-- Tail of `visit_ArrayDecl` after `collect`: wrap the collected node in an
`Array` carrying the current dimension stack, then reset that stack. -/
def arrayDeclStep (ds : List PxdNode) (s : AState) : AState :=
  match ds with
  | [] => s
  | d :: _ => appendCur (.array d s.dimension_stack) { s with dimension_stack := [] }

/-- `isinstance(x, IdentifierType)` in the source: `Ptr` and `Array` are
subclasses of `IdentifierType`. -/
def isinstanceIdentifierType : PxdNode → Bool
  | .identifierType _ _ => true
  | .ptr _ => true
  | .array _ _ => true
  | _ => false

/-- The void-parameter elision of `visit_FuncDecl`: a parameter list that is
exactly one value which is an `IdentifierType` (or subclass) whose type text
is exactly "void" becomes the empty list. -/
def elideVoidArgs (args0 : List PxdNode) : List PxdNode :=
  match args0 with
  | [a] => if isinstanceIdentifierType a && pxdTypeName a == "void" then [] else args0
  | _ => args0

/-- Tail of `visit_FuncDecl` after `collect`: the last collected node is the
return declarator (its `.type_name` and `.name` give the return type and
function name), the rest are the parameters; a single IdentifierType
parameter typed exactly "void" is elided.  When the immediate ancestor is a
PtrDecl whose own parent is not a Typedef, a function-pointer ctypedef named
by `path_name('ft')` is hoisted to the top level and only that name is left
at the call site; otherwise a plain `Function` is appended. -/
def funcDeclStep (ds : List PxdNode) (s : AState) : AState :=
  let retNode := ds.getLastD .pyNone
  let return_type := pxdTypeName retNode
  let fname := pxdName retNode
  let args := elideVoidArgs ds.dropLast
  if stackIs s 1 isPtrDeclNode && !stackIs s 2 isTypedefNode then
    let name := path_name s.visit_stack (some "ft")
    appendCur (.pyStr name) (appendTop (.typeNode (.ptr (.function return_type name args))) s)
  else
    appendCur (.function return_type fname args) s

/-- Tail of `visit_Typedef` after `collect`: nothing unless exactly one value
was collected; stringify it, split on whitespace, and append a ctypedef
wrapper only when the first two words differ. -/
def typedefStep (ds : List PxdNode) (s : AState) : AState :=
  match ds with
  | [d] =>
      let names := pySplit (pxdStr d)
      if names.getD 0 "" ≠ names.getD 1 "" then appendTop (.typeNode d) s else s
  | _ => s

/-- The identity questions `visit_Block` and `visit_Enum` ask before
emitting, plus the resolved struct/union name: is the immediate parent a
TypeDecl (`type_decl`), and is that parent's parent a Typedef (`type_def`);
the emitted name is the node's own truthy name, else the untagged path name
for a typedef target, else the path name tagged with the kind letter. -/
structure BlockCtx where
  type_decl : Bool
  type_def : Bool
  resolvedName : String

/-- Lines 214-221 of the source (start of `visit_Block`). -/
def blockCtx (name : Option String) (tag : String) (s : AState) : BlockCtx :=
  let td := stackIs s 1 isTypeDeclNode
  let tdef := td && stackIs s 2 isTypedefNode
  let nm :=
    match truthy name with
    | some n => n
    | none =>
        if tdef then path_name s.visit_stack none
        else path_name s.visit_stack (some tag)
  ⟨td, tdef, nm⟩

/-- `visit_Block` when the node has no body: a bare name reference when the
parent is a TypeDecl, else nothing. -/
def blockNoBodyStep (ctx : BlockCtx) (s : AState) : AState :=
  if ctx.type_decl then appendCur (.pyStr ctx.resolvedName) s else s

/-- `visit_Block` when the node has a body, after the fields were collected:
an anonymous typedef target becomes a single `ctypedef` block at top level;
otherwise a `cdef` block is hoisted and, under a TypeDecl, a name reference
is left at the call site. -/
def blockBodyStep (name : Option String) (ctx : BlockCtx) (fields : List PxdNode)
    (kind : String) (s : AState) : AState :=
  if ctx.type_def && name.isNone then
    appendTop (.block ctx.resolvedName fields kind "ctypedef") s
  else
    let s1 := appendTop (.block ctx.resolvedName fields kind "cdef") s
    if ctx.type_decl then appendCur (.pyStr ctx.resolvedName) s1 else s1

/-- `visit_Enum`, which visits no children: evaluate the enumerators into the
Constant Table; resolve the name — NOTE the source's dead branch, an
`elif type_def` directly after `if type_def`, is kept as written, so an
anonymous enum that is not a typedef target keeps name `None`; emit a
`ctypedef` enum for an anonymous typedef target with items, else a `cdef`
enum when there are items, and leave the name (possibly `None`) at the call
site when under a TypeDecl. -/
def enumStep (name : Option String) (values : Option (List (String × Option EnumInit)))
    (s : AState) : AState :=
  let (items, consts) :=
    match values with
    | some enums => evalEnumerators enums 0 s.constants
    | none => ([], s.constants)
  let td := stackIs s 1 isTypeDeclNode
  let tdef := td && stackIs s 2 isTypedefNode
  let resolved : Option String :=
    match truthy name with
    | some n => some n
    | none =>
        if tdef then some (path_name s.visit_stack none)
        else if tdef then some (path_name s.visit_stack (some "e"))
        else none
  let s0 := { s with constants := consts }
  if name.isNone && tdef && !items.isEmpty then
    appendTop (.enum resolved items "ctypedef") s0
  else
    let s1 := if !items.isEmpty then appendTop (.enum resolved items "cdef") s0 else s0
    if td then
      appendCur (match resolved with | some n => .pyStr n | none => .pyNone) s1
    else s1

mutual

/-- `AutoPxd.visit`: push the node, dispatch on its kind (the per-kind
`visit_*` methods, with `generic_visit` for kinds without a handler), pop.
`collect` appears as a pushFrame / child visits / popFrame bracket. -/
def visit (node : CAst) (s : AState) : AState :=
  let s1 : AState := { s with visit_stack := node :: s.visit_stack }
  let s2 : AState :=
    match node with
    | .identifierType names => identifierTypeStep names s1
    | .typeDecl declname ty =>
        let (ds, sb) := popFrame (visit ty (pushFrame s1))
        typeDeclStep declname ds sb
    | .decl name ty =>
        let (ds, sb) := popFrame (visit ty (pushFrame s1))
        declStep name ds sb
    | .typedef _ ty =>
        let (ds, sb) := popFrame (visit ty (pushFrame s1))
        typedefStep ds sb
    | .typename _ ty => visit ty s1
    | .ptrDecl ty =>
        let (ds, sb) := popFrame (visit ty (pushFrame s1))
        ptrDeclStep ds sb
    | .arrayDecl ty dim =>
        let d := dimString s1 dim
        let sa : AState := { s1 with dimension_stack := s1.dimension_stack ++ [d] }
        let sb := visit ty (pushFrame sa)
        let sc :=
          match dim with
          | some dn => visit dn sb
          | none => sb
        let (ds, sd) := popFrame sc
        arrayDeclStep ds sd
    | .funcDecl args ty =>
        let sa :=
          match args with
          | some a => visit a (pushFrame s1)
          | none => pushFrame s1
        let (ds, sc) := popFrame (visit ty sa)
        funcDeclStep ds sc
    | .structNode name decls =>
        let ctx := blockCtx name "s" s1
        (match decls with
         | some l =>
             match l with
             | [] => blockNoBodyStep ctx s1
             | _ :: _ =>
                 let (fs, sb) := popFrame (visitList l (pushFrame s1))
                 blockBodyStep name ctx fs "struct" sb
         | none => blockNoBodyStep ctx s1)
    | .unionNode name decls =>
        let ctx := blockCtx name "u" s1
        (match decls with
         | some l =>
             match l with
             | [] => blockNoBodyStep ctx s1
             | _ :: _ =>
                 let (fs, sb) := popFrame (visitList l (pushFrame s1))
                 blockBodyStep name ctx fs "union" sb
         | none => blockNoBodyStep ctx s1)
    | .enumNode name values => enumStep name values s1
    | .fileAST ext => visitList ext s1
    | .paramList ps => visitList ps s1
    | .constExpr _ => s1
    | .idExpr _ => s1
    | .otherExpr => s1
  { s2 with visit_stack := s2.visit_stack.tail }

/-- `generic_visit` over a child list, left to right. -/
def visitList (l : List CAst) (s : AState) : AState :=
  match l with
  | [] => s
  | n :: rest => visitList rest (visit n s)

end

/-- `AutoPxd.lines`: the extern header line, a blank, then every top-level
node's lines indented one unit, each node followed by a blank line. -/
def autopxdModuleLines (hdrname : String) (decls : List PxdNode) : List String :=
  ("cdef extern from \"" ++ hdrname ++ "\":") :: "" ::
    (decls.map (fun d => (pxdLines d).map (fun l => indentUnit ++ l) ++ [""])).flatten

/-- The string `translate` builds from a finished visitor state: an optional
stdint cimport line (only when some fixed-width name was registered), then
`str(p)`. -/
def renderOutput (hdrname : String) (p : AState) : String :=
  (if p.stdint_declarations.isEmpty then ""
   else "from libc.stdint cimport " ++
     String.intercalate ", " p.stdint_declarations ++ "\n\n")
  ++ String.intercalate "\n" (autopxdModuleLines hdrname p.toplevel)

/-- `translate`: run a fresh visitor over the AST and render. (Preprocessing,
parsing and whitelist filtering are the upstream collaborators; the AST here
is their output.) -/
def translate (ast : CAst) (hdrname : String) : String :=
  renderOutput hdrname (visit ast initState)

/-- The source's `decl_stack[-1]`: the innermost open `collect` frame, or the
top-level accumulator when no frame is open. -/
def currentDecls (s : AState) : List PxdNode :=
  match s.frames with
  | [] => s.toplevel
  | f :: _ => f

mutual

/-- The identifier words the walk passes to `visit_IdentifierType`, in visit
order (children in `generic_visit` order; `visit_Enum` visits no children,
so enum bodies contribute nothing). -/
def gatherIds : CAst → List String
  | .identifierType names => names
  | .typeDecl _ ty => gatherIds ty
  | .decl _ ty => gatherIds ty
  | .typedef _ ty => gatherIds ty
  | .typename _ ty => gatherIds ty
  | .ptrDecl ty => gatherIds ty
  | .arrayDecl ty dim =>
      gatherIds ty ++ (match dim with | some d => gatherIds d | none => [])
  | .funcDecl args ty =>
      (match args with | some a => gatherIds a | none => []) ++ gatherIds ty
  | .structNode _ decls =>
      (match decls with | some l => gatherIdsList l | none => [])
  | .unionNode _ decls =>
      (match decls with | some l => gatherIdsList l | none => [])
  | .enumNode _ _ => []
  | .fileAST ext => gatherIdsList ext
  | .paramList ps => gatherIdsList ps
  | .constExpr _ => []
  | .idExpr _ => []
  | .otherExpr => []

def gatherIdsList : List CAst → List String
  | [] => []
  | n :: rest => gatherIds n ++ gatherIdsList rest

end

/-- The registration loop of `visit_IdentifierType`, as a fold: append each
fixed-width name not yet registered, in encounter order. -/
def stdintFold (acc : List String) (l : List String) : List String :=
  l.foldl
    (fun acc n => if n ∈ STDINT_DECLARATIONS ∧ n ∉ acc then acc ++ [n] else acc)
    acc

/-- Keep the first occurrence of every element, in order. -/
def keepFirsts (l : List String) : List String :=
  l.foldl (fun acc n => if n ∉ acc then acc ++ [n] else acc) []

/-- A chain of k directly nested ArrayDecls around `int <nm>`; the head
dimension is the outermost. -/
def arrChain (nm : String) : List String → CAst
  | [] => .typeDecl (some nm) (.identifierType ["int"])
  | v :: rest => .arrayDecl (arrChain nm rest) (some (.constExpr v))

/-- `n` nested `Array` wrappers each carrying an empty dimension list. -/
def emptyWraps : Nat → PxdNode → PxdNode
  | 0, x => x
  | n + 1, x => .array (emptyWraps n x) []

/-- Does a top-level accumulator consist of exactly one Array node that
directly holds the given dimension sequence and whose wrapped node is not
itself an Array?  (The shape claim C7 asserts for a multi-dimensional
declaration.) -/
def isSingleArrayHolding (decls : List PxdNode) (dims : List String) : Bool :=
  match decls with
  | [.array b ds] =>
      ds == dims &&
        (match b with
         | .array _ _ => false
         | _ => true)
  | _ => false

/-- pycparser AST of `enum { A, B = 5, C }; int arr[C];`. -/
def c1ast : CAst := .fileAST [
  .decl none (.enumNode none (some [("A", none), ("B", some (.lit 5)), ("C", none)])),
  .decl (some "arr") (.arrayDecl (.typeDecl (some "arr") (.identifierType ["int"]))
    (some (.idExpr "C")))]

/-- pycparser AST of `enum { A, B };` (anonymous enum with a body that is not
a typedef target). -/
def c2ast : CAst := .fileAST [
  .decl none (.enumNode none (some [("A", none), ("B", none)]))]

/-- pycparser AST of `typedef struct { int x; } foo_t;`. -/
def c3ast : CAst := .fileAST [
  .typedef (some "foo_t") (.typeDecl (some "foo_t") (.structNode none
    (some [.decl (some "x") (.typeDecl (some "x") (.identifierType ["int"]))])))]

/-- pycparser AST of `struct bar { int (*cb)(void); };`. -/
def c4ast : CAst := .fileAST [
  .decl none (.structNode (some "bar") (some [
    .decl (some "cb") (.ptrDecl (.funcDecl
      (some (.paramList [.typename none (.typeDecl none (.identifierType ["void"]))]))
      (.typeDecl (some "cb") (.identifierType ["int"]))))]))]

/-- The visit stack at the moment `visit_FuncDecl` fires inside
`struct bar { int (*cb)(void); };` (newest first), and the collected decls
there: the single void parameter and the return declarator. -/
def s4w : AState :=
  { toplevel := [], frames := [[]],
    visit_stack := [
      .funcDecl none (.identifierType ["int"]),
      .ptrDecl (.identifierType ["int"]),
      .decl (some "cb") (.identifierType ["int"]),
      .structNode (some "bar") none,
      .decl none (.identifierType ["int"]),
      .fileAST []],
    stdint_declarations := [], dimension_stack := [], constants := [] }

def ds4w : List PxdNode := [.identifierType "" "void", .identifierType "cb" "int"]

/-- A state with one open collect frame and an empty dimension stack, as at
any declaration site not nested in another array declarator. -/
def st7 : AState :=
  { toplevel := [], frames := [[]], visit_stack := [],
    stdint_declarations := [], dimension_stack := [], constants := [] }

/-- pycparser AST of `int a[2][3];`. -/
def c7ast : CAst := .fileAST [
  .decl (some "a") (.arrayDecl
    (.arrayDecl (.typeDecl (some "a") (.identifierType ["int"])) (some (.constExpr "3")))
    (some (.constExpr "2")))]

/-- pycparser AST of `typedef long long foo;`. -/
def c6ast : CAst := .fileAST [
  .typedef (some "foo") (.typeDecl (some "foo") (.identifierType ["long", "long"]))]

/-- A state for the C5 witness: a fresh visitor about to finish
`void f(void);` (the FuncDecl's parent is the Decl, not a PtrDecl). -/
def s5w : AState :=
  { toplevel := [], frames := [[]],
    visit_stack := [
      .funcDecl none (.identifierType ["void"]),
      .decl (some "f") (.identifierType ["void"]),
      .fileAST []],
    stdint_declarations := [], dimension_stack := [], constants := [] }

def ds5w : List PxdNode := [.identifierType "" "void", .identifierType "f" "void"]

/- ------------------------------------------------------------------ -/
/- Lemmas about the state operations.                                  -/
/- ------------------------------------------------------------------ -/

@[simp] lemma appendCur_visit_stack (x : PxdNode) (s : AState) :
    (appendCur x s).visit_stack = s.visit_stack := by
  unfold appendCur; split <;> rfl

@[simp] lemma appendCur_stdint (x : PxdNode) (s : AState) :
    (appendCur x s).stdint_declarations = s.stdint_declarations := by
  unfold appendCur; split <;> rfl

@[simp] lemma appendTop_visit_stack (x : PxdNode) (s : AState) :
    (appendTop x s).visit_stack = s.visit_stack := rfl

@[simp] lemma appendTop_stdint (x : PxdNode) (s : AState) :
    (appendTop x s).stdint_declarations = s.stdint_declarations := rfl

@[simp] lemma pushFrame_visit_stack (s : AState) :
    (pushFrame s).visit_stack = s.visit_stack := rfl

@[simp] lemma pushFrame_stdint (s : AState) :
    (pushFrame s).stdint_declarations = s.stdint_declarations := rfl

@[simp] lemma identifierTypeStep_visit_stack (names : List String) (s : AState) :
    (identifierTypeStep names s).visit_stack = s.visit_stack := by
  simp [identifierTypeStep]

@[simp] lemma identifierTypeStep_stdint (names : List String) (s : AState) :
    (identifierTypeStep names s).stdint_declarations =
      stdintFold s.stdint_declarations names := by
  simp [identifierTypeStep, stdintFold]

@[simp] lemma typeDeclStep_visit_stack (dn : Option String) (ds : List PxdNode) (s : AState) :
    (typeDeclStep dn ds s).visit_stack = s.visit_stack := by
  unfold typeDeclStep; split
  · rfl
  · split <;> simp

@[simp] lemma typeDeclStep_stdint (dn : Option String) (ds : List PxdNode) (s : AState) :
    (typeDeclStep dn ds s).stdint_declarations = s.stdint_declarations := by
  unfold typeDeclStep; split
  · rfl
  · split <;> simp

@[simp] lemma declStep_visit_stack (nm : Option String) (ds : List PxdNode) (s : AState) :
    (declStep nm ds s).visit_stack = s.visit_stack := by
  unfold declStep; split
  · rfl
  · split <;> simp

@[simp] lemma declStep_stdint (nm : Option String) (ds : List PxdNode) (s : AState) :
    (declStep nm ds s).stdint_declarations = s.stdint_declarations := by
  unfold declStep; split
  · rfl
  · split <;> simp

@[simp] lemma ptrDeclStep_visit_stack (ds : List PxdNode) (s : AState) :
    (ptrDeclStep ds s).visit_stack = s.visit_stack := by
  unfold ptrDeclStep; split
  · rfl
  · split <;> simp

@[simp] lemma ptrDeclStep_stdint (ds : List PxdNode) (s : AState) :
    (ptrDeclStep ds s).stdint_declarations = s.stdint_declarations := by
  unfold ptrDeclStep; split
  · rfl
  · split <;> simp

@[simp] lemma arrayDeclStep_visit_stack (ds : List PxdNode) (s : AState) :
    (arrayDeclStep ds s).visit_stack = s.visit_stack := by
  unfold arrayDeclStep; split
  · rfl
  · simp

@[simp] lemma arrayDeclStep_stdint (ds : List PxdNode) (s : AState) :
    (arrayDeclStep ds s).stdint_declarations = s.stdint_declarations := by
  unfold arrayDeclStep; split
  · rfl
  · simp

@[simp] lemma funcDeclStep_visit_stack (ds : List PxdNode) (s : AState) :
    (funcDeclStep ds s).visit_stack = s.visit_stack := by
  unfold funcDeclStep; split <;> simp

@[simp] lemma funcDeclStep_stdint (ds : List PxdNode) (s : AState) :
    (funcDeclStep ds s).stdint_declarations = s.stdint_declarations := by
  unfold funcDeclStep; split <;> simp

@[simp] lemma typedefStep_visit_stack (ds : List PxdNode) (s : AState) :
    (typedefStep ds s).visit_stack = s.visit_stack := by
  unfold typedefStep
  repeat' split
  all_goals simp [apply_ite AState.visit_stack]

@[simp] lemma typedefStep_stdint (ds : List PxdNode) (s : AState) :
    (typedefStep ds s).stdint_declarations = s.stdint_declarations := by
  unfold typedefStep
  repeat' split
  all_goals simp [apply_ite AState.stdint_declarations]

@[simp] lemma blockNoBodyStep_visit_stack (ctx : BlockCtx) (s : AState) :
    (blockNoBodyStep ctx s).visit_stack = s.visit_stack := by
  unfold blockNoBodyStep; split <;> simp

@[simp] lemma blockNoBodyStep_stdint (ctx : BlockCtx) (s : AState) :
    (blockNoBodyStep ctx s).stdint_declarations = s.stdint_declarations := by
  unfold blockNoBodyStep; split <;> simp

@[simp] lemma blockBodyStep_visit_stack (nm : Option String) (ctx : BlockCtx)
    (fs : List PxdNode) (kind : String) (s : AState) :
    (blockBodyStep nm ctx fs kind s).visit_stack = s.visit_stack := by
  unfold blockBodyStep; split
  · simp
  · split <;> simp

@[simp] lemma blockBodyStep_stdint (nm : Option String) (ctx : BlockCtx)
    (fs : List PxdNode) (kind : String) (s : AState) :
    (blockBodyStep nm ctx fs kind s).stdint_declarations = s.stdint_declarations := by
  unfold blockBodyStep; split
  · simp
  · split <;> simp

@[simp] lemma enumStep_visit_stack (nm : Option String)
    (values : Option (List (String × Option EnumInit))) (s : AState) :
    (enumStep nm values s).visit_stack = s.visit_stack := by
  unfold enumStep
  repeat' split
  all_goals simp [apply_ite AState.visit_stack]

@[simp] lemma enumStep_stdint (nm : Option String)
    (values : Option (List (String × Option EnumInit))) (s : AState) :
    (enumStep nm values s).stdint_declarations = s.stdint_declarations := by
  unfold enumStep
  repeat' split
  all_goals simp [apply_ite AState.stdint_declarations]

/- ------------------------------------------------------------------ -/
/- One definitional unfolding lemma of `visit` per node kind.          -/
/- ------------------------------------------------------------------ -/

lemma visit_identifierType (names : List String) (s : AState) :
    visit (.identifierType names) s =
      (let s2 := identifierTypeStep names
        { s with visit_stack := .identifierType names :: s.visit_stack }
       { s2 with visit_stack := s2.visit_stack.tail }) := rfl

lemma visit_typeDecl (dn : Option String) (ty : CAst) (s : AState) :
    visit (.typeDecl dn ty) s =
      (let sb := visit ty (pushFrame { s with visit_stack := .typeDecl dn ty :: s.visit_stack })
       let s2 := typeDeclStep dn (sb.frames.headD []) { sb with frames := sb.frames.tail }
       { s2 with visit_stack := s2.visit_stack.tail }) := rfl

lemma visit_decl (nm : Option String) (ty : CAst) (s : AState) :
    visit (.decl nm ty) s =
      (let sb := visit ty (pushFrame { s with visit_stack := .decl nm ty :: s.visit_stack })
       let s2 := declStep nm (sb.frames.headD []) { sb with frames := sb.frames.tail }
       { s2 with visit_stack := s2.visit_stack.tail }) := rfl

lemma visit_typedef (nm : Option String) (ty : CAst) (s : AState) :
    visit (.typedef nm ty) s =
      (let sb := visit ty (pushFrame { s with visit_stack := .typedef nm ty :: s.visit_stack })
       let s2 := typedefStep (sb.frames.headD []) { sb with frames := sb.frames.tail }
       { s2 with visit_stack := s2.visit_stack.tail }) := rfl

lemma visit_typename (nm : Option String) (ty : CAst) (s : AState) :
    visit (.typename nm ty) s =
      (let s2 := visit ty { s with visit_stack := .typename nm ty :: s.visit_stack }
       { s2 with visit_stack := s2.visit_stack.tail }) := rfl

lemma visit_ptrDecl (ty : CAst) (s : AState) :
    visit (.ptrDecl ty) s =
      (let sb := visit ty (pushFrame { s with visit_stack := .ptrDecl ty :: s.visit_stack })
       let s2 := ptrDeclStep (sb.frames.headD []) { sb with frames := sb.frames.tail }
       { s2 with visit_stack := s2.visit_stack.tail }) := rfl

lemma visit_arrayDecl_some (ty : CAst) (dn : CAst) (s : AState) :
    visit (.arrayDecl ty (some dn)) s =
      (let s1 : AState := { s with visit_stack := .arrayDecl ty (some dn) :: s.visit_stack }
       let sb := visit ty (pushFrame
         { s1 with dimension_stack := s1.dimension_stack ++ [dimString s1 (some dn)] })
       let sc := visit dn sb
       let s2 := arrayDeclStep (sc.frames.headD []) { sc with frames := sc.frames.tail }
       { s2 with visit_stack := s2.visit_stack.tail }) := rfl

lemma visit_arrayDecl_none (ty : CAst) (s : AState) :
    visit (.arrayDecl ty none) s =
      (let s1 : AState := { s with visit_stack := .arrayDecl ty none :: s.visit_stack }
       let sc := visit ty (pushFrame
         { s1 with dimension_stack := s1.dimension_stack ++ [dimString s1 none] })
       let s2 := arrayDeclStep (sc.frames.headD []) { sc with frames := sc.frames.tail }
       { s2 with visit_stack := s2.visit_stack.tail }) := rfl

lemma visit_funcDecl_some (a : CAst) (ty : CAst) (s : AState) :
    visit (.funcDecl (some a) ty) s =
      (let s1 : AState := { s with visit_stack := .funcDecl (some a) ty :: s.visit_stack }
       let sb := visit ty (visit a (pushFrame s1))
       let s2 := funcDeclStep (sb.frames.headD []) { sb with frames := sb.frames.tail }
       { s2 with visit_stack := s2.visit_stack.tail }) := rfl

lemma visit_funcDecl_none (ty : CAst) (s : AState) :
    visit (.funcDecl none ty) s =
      (let s1 : AState := { s with visit_stack := .funcDecl none ty :: s.visit_stack }
       let sb := visit ty (pushFrame s1)
       let s2 := funcDeclStep (sb.frames.headD []) { sb with frames := sb.frames.tail }
       { s2 with visit_stack := s2.visit_stack.tail }) := rfl

lemma visit_structNode_none (nm : Option String) (s : AState) :
    visit (.structNode nm none) s =
      (let s1 : AState := { s with visit_stack := .structNode nm none :: s.visit_stack }
       let s2 := blockNoBodyStep (blockCtx nm "s" s1) s1
       { s2 with visit_stack := s2.visit_stack.tail }) := rfl

lemma visit_structNode_someNil (nm : Option String) (s : AState) :
    visit (.structNode nm (some [])) s =
      (let s1 : AState := { s with visit_stack := .structNode nm (some []) :: s.visit_stack }
       let s2 := blockNoBodyStep (blockCtx nm "s" s1) s1
       { s2 with visit_stack := s2.visit_stack.tail }) := rfl

lemma visit_structNode_body (nm : Option String) (d : CAst) (rest : List CAst) (s : AState) :
    visit (.structNode nm (some (d :: rest))) s =
      (let s1 : AState :=
         { s with visit_stack := .structNode nm (some (d :: rest)) :: s.visit_stack }
       let sb := visitList (d :: rest) (pushFrame s1)
       let s2 := blockBodyStep nm (blockCtx nm "s" s1) (sb.frames.headD []) "struct"
         { sb with frames := sb.frames.tail }
       { s2 with visit_stack := s2.visit_stack.tail }) := rfl

lemma visit_unionNode_none (nm : Option String) (s : AState) :
    visit (.unionNode nm none) s =
      (let s1 : AState := { s with visit_stack := .unionNode nm none :: s.visit_stack }
       let s2 := blockNoBodyStep (blockCtx nm "u" s1) s1
       { s2 with visit_stack := s2.visit_stack.tail }) := rfl

lemma visit_unionNode_someNil (nm : Option String) (s : AState) :
    visit (.unionNode nm (some [])) s =
      (let s1 : AState := { s with visit_stack := .unionNode nm (some []) :: s.visit_stack }
       let s2 := blockNoBodyStep (blockCtx nm "u" s1) s1
       { s2 with visit_stack := s2.visit_stack.tail }) := rfl

lemma visit_unionNode_body (nm : Option String) (d : CAst) (rest : List CAst) (s : AState) :
    visit (.unionNode nm (some (d :: rest))) s =
      (let s1 : AState :=
         { s with visit_stack := .unionNode nm (some (d :: rest)) :: s.visit_stack }
       let sb := visitList (d :: rest) (pushFrame s1)
       let s2 := blockBodyStep nm (blockCtx nm "u" s1) (sb.frames.headD []) "union"
         { sb with frames := sb.frames.tail }
       { s2 with visit_stack := s2.visit_stack.tail }) := rfl

lemma visit_enumNode (nm : Option String)
    (values : Option (List (String × Option EnumInit))) (s : AState) :
    visit (.enumNode nm values) s =
      (let s2 := enumStep nm values { s with visit_stack := .enumNode nm values :: s.visit_stack }
       { s2 with visit_stack := s2.visit_stack.tail }) := rfl

lemma visit_fileAST (ext : List CAst) (s : AState) :
    visit (.fileAST ext) s =
      (let s2 := visitList ext { s with visit_stack := .fileAST ext :: s.visit_stack }
       { s2 with visit_stack := s2.visit_stack.tail }) := rfl

lemma visit_paramList (ps : List CAst) (s : AState) :
    visit (.paramList ps) s =
      (let s2 := visitList ps { s with visit_stack := .paramList ps :: s.visit_stack }
       { s2 with visit_stack := s2.visit_stack.tail }) := rfl

lemma visit_constExpr (v : String) (s : AState) : visit (.constExpr v) s = s := rfl

lemma visit_idExpr (n : String) (s : AState) : visit (.idExpr n) s = s := rfl

lemma visit_otherExpr (s : AState) : visit .otherExpr s = s := rfl

@[simp] lemma visitList_nil (s : AState) : visitList [] s = s := rfl

lemma visitList_cons (n : CAst) (rest : List CAst) (s : AState) :
    visitList (n :: rest) s = visitList rest (visit n s) := rfl

/- ------------------------------------------------------------------ -/
/- The visit stack is restored around every visit.                     -/
/- ------------------------------------------------------------------ -/

mutual

theorem visit_restores_stack (node : CAst) (s : AState) :
    (visit node s).visit_stack = s.visit_stack := by
  cases node with
  | identifierType names => rw [visit_identifierType]; simp
  | typeDecl dn ty =>
      rw [visit_typeDecl]; simp [visit_restores_stack ty]
  | decl nm ty =>
      rw [visit_decl]; simp [visit_restores_stack ty]
  | typedef nm ty =>
      rw [visit_typedef]; simp [visit_restores_stack ty]
  | typename nm ty =>
      rw [visit_typename]; simp [visit_restores_stack ty]
  | ptrDecl ty =>
      rw [visit_ptrDecl]; simp [visit_restores_stack ty]
  | arrayDecl ty dim =>
      cases dim with
      | none =>
          rw [visit_arrayDecl_none]; simp [visit_restores_stack ty]
      | some dn =>
          rw [visit_arrayDecl_some]
          simp [visit_restores_stack dn, visit_restores_stack ty]
  | funcDecl args ty =>
      cases args with
      | none =>
          rw [visit_funcDecl_none]; simp [visit_restores_stack ty]
      | some a =>
          rw [visit_funcDecl_some]
          simp [visit_restores_stack ty, visit_restores_stack a]
  | structNode nm decls =>
      cases decls with
      | none => rw [visit_structNode_none]; simp
      | some l =>
          cases l with
          | nil => rw [visit_structNode_someNil]; simp
          | cons d rest =>
              rw [visit_structNode_body]
              simp [visitList_restores_stack (d :: rest)]
  | unionNode nm decls =>
      cases decls with
      | none => rw [visit_unionNode_none]; simp
      | some l =>
          cases l with
          | nil => rw [visit_unionNode_someNil]; simp
          | cons d rest =>
              rw [visit_unionNode_body]
              simp [visitList_restores_stack (d :: rest)]
  | enumNode nm values => rw [visit_enumNode]; simp
  | fileAST ext =>
      rw [visit_fileAST]; simp [visitList_restores_stack ext]
  | paramList ps =>
      rw [visit_paramList]; simp [visitList_restores_stack ps]
  | constExpr v => rfl
  | idExpr n => rfl
  | otherExpr => rfl

theorem visitList_restores_stack (l : List CAst) (s : AState) :
    (visitList l s).visit_stack = s.visit_stack := by
  cases l with
  | nil => rfl
  | cons n rest =>
      rw [visitList_cons, visitList_restores_stack rest, visit_restores_stack n]

end

/- ------------------------------------------------------------------ -/
/- The stdint registration as a fold over the encountered identifiers. -/
/- ------------------------------------------------------------------ -/

@[simp] lemma stdintFold_nil (acc : List String) : stdintFold acc [] = acc := rfl

lemma stdintFold_cons (acc : List String) (n : String) (l : List String) :
    stdintFold acc (n :: l) =
      stdintFold (if n ∈ STDINT_DECLARATIONS ∧ n ∉ acc then acc ++ [n] else acc) l := rfl

@[simp] lemma stdintFold_append (acc l1 l2 : List String) :
    stdintFold acc (l1 ++ l2) = stdintFold (stdintFold acc l1) l2 := by
  simp [stdintFold, List.foldl_append]

mutual

theorem visit_stdint (node : CAst) (s : AState) :
    (visit node s).stdint_declarations =
      stdintFold s.stdint_declarations (gatherIds node) := by
  cases node with
  | identifierType names => rw [visit_identifierType]; simp [gatherIds]
  | typeDecl dn ty => rw [visit_typeDecl]; simp [gatherIds, visit_stdint ty]
  | decl nm ty => rw [visit_decl]; simp [gatherIds, visit_stdint ty]
  | typedef nm ty => rw [visit_typedef]; simp [gatherIds, visit_stdint ty]
  | typename nm ty => rw [visit_typename]; simp [gatherIds, visit_stdint ty]
  | ptrDecl ty => rw [visit_ptrDecl]; simp [gatherIds, visit_stdint ty]
  | arrayDecl ty dim =>
      cases dim with
      | none => rw [visit_arrayDecl_none]; simp [gatherIds, visit_stdint ty]
      | some dn =>
          rw [visit_arrayDecl_some]
          simp [gatherIds, visit_stdint dn, visit_stdint ty]
  | funcDecl args ty =>
      cases args with
      | none => rw [visit_funcDecl_none]; simp [gatherIds, visit_stdint ty]
      | some a =>
          rw [visit_funcDecl_some]
          simp [gatherIds, visit_stdint ty, visit_stdint a]
  | structNode nm decls =>
      cases decls with
      | none => rw [visit_structNode_none]; simp [gatherIds]
      | some l =>
          cases l with
          | nil => rw [visit_structNode_someNil]; simp [gatherIds, gatherIdsList]
          | cons d rest =>
              rw [visit_structNode_body]
              simp [gatherIds, visitList_stdint (d :: rest)]
  | unionNode nm decls =>
      cases decls with
      | none => rw [visit_unionNode_none]; simp [gatherIds]
      | some l =>
          cases l with
          | nil => rw [visit_unionNode_someNil]; simp [gatherIds, gatherIdsList]
          | cons d rest =>
              rw [visit_unionNode_body]
              simp [gatherIds, visitList_stdint (d :: rest)]
  | enumNode nm values => rw [visit_enumNode]; simp [gatherIds]
  | fileAST ext => rw [visit_fileAST]; simp [gatherIds, visitList_stdint ext]
  | paramList ps => rw [visit_paramList]; simp [gatherIds, visitList_stdint ps]
  | constExpr v => simp [visit_constExpr, gatherIds]
  | idExpr n => simp [visit_idExpr, gatherIds]
  | otherExpr => simp [visit_otherExpr, gatherIds]

theorem visitList_stdint (l : List CAst) (s : AState) :
    (visitList l s).stdint_declarations =
      stdintFold s.stdint_declarations (gatherIdsList l) := by
  cases l with
  | nil => simp [gatherIdsList]
  | cons n rest =>
      rw [visitList_cons, visitList_stdint rest, visit_stdint n]
      simp [gatherIdsList]

end

lemma mem_stdintFold (x : String) (l acc : List String) :
    x ∈ stdintFold acc l ↔ x ∈ acc ∨ (x ∈ l ∧ x ∈ STDINT_DECLARATIONS) := by
  induction l generalizing acc with
  | nil => simp
  | cons n rest ih =>
      rw [stdintFold_cons, ih]
      by_cases h1 : n ∈ STDINT_DECLARATIONS <;> by_cases h2 : n ∈ acc <;>
        simp [h1, h2] <;> aesop

lemma nodup_stdintFold (l acc : List String) (h : acc.Nodup) :
    (stdintFold acc l).Nodup := by
  induction l generalizing acc with
  | nil => simpa
  | cons n rest ih =>
      rw [stdintFold_cons]
      apply ih
      split_ifs with hc
      · simp [List.nodup_append, h, hc.2]
      · exact h

lemma stdintFold_eq_keepFirsts_aux (l acc : List String) :
    stdintFold acc l =
      (l.filter (fun n => decide (n ∈ STDINT_DECLARATIONS))).foldl
        (fun acc n => if n ∉ acc then acc ++ [n] else acc) acc := by
  induction l generalizing acc with
  | nil => simp
  | cons n rest ih =>
      rw [stdintFold_cons]
      by_cases h1 : n ∈ STDINT_DECLARATIONS
      · simp [List.filter_cons, h1, ih]
      · simp [List.filter_cons, h1, ih]

lemma stdintFold_keepFirsts (l : List String) :
    stdintFold [] l =
      keepFirsts (l.filter (fun n => decide (n ∈ STDINT_DECLARATIONS))) := by
  rw [stdintFold_eq_keepFirsts_aux]; rfl

/- ------------------------------------------------------------------ -/
/- Directly nested array declarators.                                  -/
/- ------------------------------------------------------------------ -/

theorem visit_arrChain_cons (nm v : String) (rest : List String) :
    ∀ s : AState,
      visit (arrChain nm (v :: rest)) s =
        appendCur
          (emptyWraps rest.length
            (.array (.identifierType nm "int") (s.dimension_stack ++ (v :: rest))))
          { s with dimension_stack := [] } := by
  induction rest generalizing v with
  | nil =>
      intro s
      obtain ⟨tl, fr, vst, sd, dst, cs⟩ := s
      cases fr with
      | nil => rfl
      | cons f r => rfl
  | cons v2 r2 ih =>
      intro s
      obtain ⟨tl, fr, vst, sd, dst, cs⟩ := s
      rw [show arrChain nm (v :: v2 :: r2) =
        CAst.arrayDecl (arrChain nm (v2 :: r2)) (some (.constExpr v)) from rfl]
      rw [visit_arrayDecl_some]
      dsimp only
      rw [ih v2, visit_constExpr]
      cases fr with
      | nil => simp [appendCur, pushFrame, arrayDeclStep, dimString, emptyWraps]
      | cons f r => simp [appendCur, pushFrame, arrayDeclStep, dimString, emptyWraps]

theorem pxdName_emptyWraps (k : Nat) (x : PxdNode) :
    pxdName (emptyWraps k x) = pxdName x := by
  induction k with
  | zero => rfl
  | succ n ih => simp [emptyWraps, pxdName, ih]

theorem pxdTypeName_emptyWraps (k : Nat) (x : PxdNode) :
    pxdTypeName (emptyWraps k x) = pxdTypeName x := by
  induction k with
  | zero => rfl
  | succ n ih => simp [emptyWraps, pxdTypeName, ih]

theorem pxdLines_emptyWraps (k : Nat) (b : PxdNode) (dims : List String) :
    pxdLines (emptyWraps k (.array b dims)) = pxdLines (.array b dims) := by
  cases k with
  | zero => rfl
  | succ n =>
      show pxdLines (.array (emptyWraps n (.array b dims)) []) = _
      rw [pxdLines, pxdLines]
      rw [pxdTypeName_emptyWraps]
      rw [show pxdName (.array (emptyWraps n (.array b dims)) []) =
        pxdName (emptyWraps n (.array b dims)) by simp [pxdName]]
      rw [pxdName_emptyWraps]
      rfl

/- ------------------------------------------------------------------ -/
/- Claim theorems.                                                     -/
/- ------------------------------------------------------------------ -/

/-- C1: evaluation of the enum rule on `enum { A, B = 5, C }; int arr[C];`.
The claim says the Constant Table maps A to 0; the code maps A to 1,
because `value += 1` runs before the first store (value starts at 0 and is
incremented even for the first enumerator).  B = 5 and C = 6 and the array
dimension 6 do hold as claimed.  This theorem records what the code
computes at the claim's own input. -/
theorem claim_C1 :
    dictLookup (visit c1ast initState).constants "A" = some 1 ∧
    dictLookup (visit c1ast initState).constants "B" = some 5 ∧
    dictLookup (visit c1ast initState).constants "C" = some 6 ∧
    (visit c1ast initState).toplevel =
      [.enum none ["A", "B", "C"] "cdef",
       .array (.identifierType "arr" "int") ["6"]] :=
  ⟨rfl, rfl, rfl, rfl⟩

/-- C2: evaluation on the anonymous non-typedef enum `enum { A, B };`.
The claim says the emitted top-level enum block carries the synthesized
path name tagged `e` (here `"_e"`); the code emits the block with name
`None` (rendering as a bare `cdef enum:` header), because the only branch
that would assign the `e`-tagged name is the dead `elif type_def` arm. -/
theorem claim_C2 :
    (visit c2ast initState).toplevel = [.enum none ["A", "B"] "cdef"] ∧
    pxdLines (.enum none ["A", "B"] "cdef") = ["cdef enum:", "    A", "    B"] :=
  ⟨rfl, rfl⟩

/-- C3: for `typedef struct { int x; } foo_t;`, exactly one top-level block
is emitted, a `ctypedef struct` named exactly `foo_t` (the typedef's own
name, no tag), and no separate top-level alias is emitted — the whole
rendered output contains just that one block. -/
theorem claim_C3 :
    (visit c3ast initState).toplevel =
      [.block "foo_t" [.identifierType "x" "int"] "struct" "ctypedef"] ∧
    translate c3ast "test.h" =
      "cdef extern from \"test.h\":\n\n    ctypedef struct foo_t:\n        int x\n" :=
  ⟨rfl, rfl⟩

/-- C4: whenever `visit_FuncDecl` finishes under an immediate PtrDecl
ancestor whose own parent is not a Typedef, it appends to the top-level
accumulator exactly one ctypedef wrapping a pointer to a function named by
the current path name tagged `ft`, and appends exactly that name as a bare
string at the original call site. -/
theorem claim_C4 (ds : List PxdNode) (s : AState)
    (h1 : stackIs s 1 isPtrDeclNode = true)
    (h2 : stackIs s 2 isTypedefNode = false)
    (hf : s.frames ≠ []) :
    (funcDeclStep ds s).toplevel =
      s.toplevel ++ [.typeNode (.ptr (.function (pxdTypeName (ds.getLastD .pyNone))
        (path_name s.visit_stack (some "ft")) (elideVoidArgs ds.dropLast)))] ∧
    currentDecls (funcDeclStep ds s) =
      currentDecls s ++ [.pyStr (path_name s.visit_stack (some "ft"))] := by
  unfold funcDeclStep
  rw [h1, h2]
  simp only [Bool.not_false, Bool.and_self, if_true]
  cases hfr : s.frames with
  | nil => exact absurd hfr hf
  | cons f r =>
      constructor
      · simp [appendCur, appendTop, hfr]
      · simp [currentDecls, appendCur, appendTop, hfr]

/-- C4 witness: the handler applied at the concrete stack of
`struct bar { int (*cb)(void); };` hoists `ctypedef int (*_bar_cb_ft)()`
and leaves the bare reference `_bar_cb_ft`. -/
theorem claim_C4_witness :
    stackIs s4w 1 isPtrDeclNode = true ∧
    stackIs s4w 2 isTypedefNode = false ∧
    s4w.frames ≠ [] ∧
    ((funcDeclStep ds4w s4w).toplevel =
       [.typeNode (.ptr (.function "int" "_bar_cb_ft" []))] ∧
     currentDecls (funcDeclStep ds4w s4w) = [.pyStr "_bar_cb_ft"]) :=
  ⟨rfl, rfl, by simp [s4w], claim_C4 ds4w s4w rfl rfl (by simp [s4w])⟩

/-- C5: whenever `visit_FuncDecl` finishes with a resolved parameter list
that is exactly one unwrapped IdentifierType whose type text is exactly
"void" (and the function-pointer hoisting branch does not fire), the
appended function signature has an empty parameter sequence. -/
theorem claim_C5 (ds : List PxdNode) (s : AState) (nm : String)
    (hv : ds.dropLast = [.identifierType nm "void"])
    (hp : stackIs s 1 isPtrDeclNode = false)
    (hf : s.frames ≠ []) :
    currentDecls (funcDeclStep ds s) =
      currentDecls s ++
        [.function (pxdTypeName (ds.getLastD .pyNone)) (pxdName (ds.getLastD .pyNone)) []] := by
  unfold funcDeclStep
  rw [hv, hp]
  simp only [Bool.false_and, if_false]
  rw [show elideVoidArgs [PxdNode.identifierType nm "void"] = [] from rfl]
  cases hfr : s.frames with
  | nil => exact absurd hfr hf
  | cons f r => simp [currentDecls, appendCur, hfr]

/-- C5 witness: at the collected decls and stack of `void f(void);` the
appended signature is the zero-parameter `void f()`. -/
theorem claim_C5_witness :
    ds5w.dropLast = [.identifierType "" "void"] ∧
    stackIs s5w 1 isPtrDeclNode = false ∧
    s5w.frames ≠ [] ∧
    currentDecls (funcDeclStep ds5w s5w) = [.function "void" "f" []] :=
  ⟨rfl, rfl, by simp [s5w], claim_C5 ds5w s5w "" rfl rfl (by simp [s5w])⟩

/-- C6: evaluation on `typedef long long foo;`.  The claim says a typedef is
dropped only when the alias name equals the underlying type name; here the
alias `foo` differs from the type `long long`, yet the code emits nothing,
because it compares the first two whitespace words of the rendered
declaration (`long` and `long`) rather than the alias and the type. -/
theorem claim_C6 :
    (visit c6ast initState).toplevel = ([] : List PxdNode) ∧ "foo" ≠ "long long" :=
  ⟨rfl, by decide⟩

/-- C7 counterexample: for `int a[2][3];` the top level does NOT hold a
single Array node carrying the dimension sequence ["2", "3"]; instead it
holds an Array wrapper with an empty dimension list around an inner Array
that carries both dimensions. -/
theorem claim_C7_counterexample :
    isSingleArrayHolding (visit c7ast initState).toplevel ["2", "3"] = false ∧
    (visit c7ast initState).toplevel =
      [.array (.array (.identifierType "a" "int") ["2", "3"]) []] :=
  ⟨rfl, rfl⟩

/-- C7 (amended): a chain of two or more directly nested ArrayDecls,
resolved with an empty dimension accumulator, yields nested Array nodes in
which the innermost Array holds the full ordered dimension sequence
(outermost dimension first) and every enclosing Array holds an empty
sequence; that nest renders to exactly the same lines as a single Array
holding all the dimensions. -/
theorem claim_C7 (nm : String) (vs : List String) (s : AState)
    (hlen : 2 ≤ vs.length) (hds : s.dimension_stack = []) :
    visit (arrChain nm vs) s =
      appendCur (emptyWraps (vs.length - 1) (.array (.identifierType nm "int") vs))
        { s with dimension_stack := [] } ∧
    pxdLines (emptyWraps (vs.length - 1) (.array (.identifierType nm "int") vs)) =
      pxdLines (.array (.identifierType nm "int") vs) := by
  cases vs with
  | nil => exact absurd hlen (by decide)
  | cons v rest =>
      refine ⟨?_, pxdLines_emptyWraps _ _ _⟩
      have h := visit_arrChain_cons nm v rest s
      rw [hds] at h
      simpa using h

/-- C7 witness: the amended statement at `int a[2][3]` from a state with one
open frame and an empty dimension accumulator. -/
theorem claim_C7_witness :
    2 ≤ (["2", "3"] : List String).length ∧
    st7.dimension_stack = [] ∧
    (visit (arrChain "a" ["2", "3"]) st7 =
       appendCur (emptyWraps 1 (.array (.identifierType "a" "int") ["2", "3"]))
         { st7 with dimension_stack := [] } ∧
     pxdLines (emptyWraps 1 (.array (.identifierType "a" "int") ["2", "3"])) =
       pxdLines (.array (.identifierType "a" "int") ["2", "3"])) :=
  ⟨by decide, rfl, claim_C7 "a" ["2", "3"] st7 (by decide) rfl⟩

/-- C8: the generated text is the optional single stdint import line (present
exactly when some fixed-width name was registered) followed by the module
body; the registered list is the first-occurrence dedup of the fixed-width
names among the identifier words the walk encounters, contains no
duplicates, and contains a name exactly when it is encountered and
fixed-width. -/
theorem claim_C8 (ast : CAst) (hdr : String) :
    translate ast hdr =
      (if (visit ast initState).stdint_declarations.isEmpty then ""
       else "from libc.stdint cimport " ++
         String.intercalate ", " (visit ast initState).stdint_declarations ++ "\n\n") ++
      String.intercalate "\n" (autopxdModuleLines hdr (visit ast initState).toplevel) ∧
    (visit ast initState).stdint_declarations =
      keepFirsts ((gatherIds ast).filter (fun n => decide (n ∈ STDINT_DECLARATIONS))) ∧
    (visit ast initState).stdint_declarations.Nodup ∧
    ∀ x, x ∈ (visit ast initState).stdint_declarations ↔
      x ∈ gatherIds ast ∧ x ∈ STDINT_DECLARATIONS := by
  have hrun : (visit ast initState).stdint_declarations = stdintFold [] (gatherIds ast) :=
    visit_stdint ast initState
  refine ⟨rfl, ?_, ?_, ?_⟩
  · rw [hrun, stdintFold_keepFirsts]
  · rw [hrun]; exact nodup_stdintFold _ _ (by simp)
  · intro x; rw [hrun, mem_stdintFold]; simp

/-- C9: translation is deterministic — rendering the visit of the same AST
from two fresh per-run states yields byte-identical output text. -/
theorem claim_C9 (ast : CAst) (hdr : String) (s1 s2 : AState)
    (h1 : s1 = initState) (h2 : s2 = initState) :
    renderOutput hdr (visit ast s1) = renderOutput hdr (visit ast s2) := by
  subst h1; subst h2; rfl

/-- C9 witness: two fresh runs over the `typedef struct { int x; } foo_t;`
AST agree. -/
theorem claim_C9_witness :
    (initState : AState) = initState ∧
    renderOutput "test.h" (visit c3ast initState) =
      renderOutput "test.h" (visit c3ast initState) :=
  ⟨rfl, claim_C9 c3ast "test.h" initState initState rfl rfl⟩

/-- C10: the ancestor stack is restored around every node: after `visit`
returns, `visit_stack` equals its value before the call, for every AST node
and every starting state. -/
theorem claim_C10 (node : CAst) (s : AState) :
    (visit node s).visit_stack = s.visit_stack :=
  visit_restores_stack node s

end Autopxd
